import Mathlib

/-!
Shallow embedding of the call-monitoring bot (`src/index.js`) and proofs of
the frozen claims about it.

Strings of the JavaScript source are modelled as `List Char`.  External
effects (HTTP posts, file I/O, the headless browser) are modelled by
environments recording each call's outcome, and the functions emit traces of
the observable actions they perform.
-/

namespace Robiul

/-- The principal whitespace code points removed by JavaScript
`String.prototype.trim` (space, tab, LF, CR, VT, FF, NBSP). -/
def isJsWhitespace (c : Char) : Bool :=
  (c == ' ') || (c == '\t') || (c == '\n') || (c == '\r') ||
  (c == Char.ofNat 11) || (c == Char.ofNat 12) || (c == Char.ofNat 160)

/-- JavaScript `String.prototype.trim`: drop whitespace from both ends. -/
def trim (l : List Char) : List Char :=
  ((l.dropWhile isJsWhitespace).reverse.dropWhile isJsWhitespace).reverse

/-- `maskNumber` from `src/index.js`: trim, then for length > 7 keep the
first 3 and last 4 characters around a literal `***`; otherwise return the
trimmed string. -/
def maskNumber (s : List Char) : List Char :=
  if 7 < (trim s).length then
    (trim s).take 3 ++ "***".toList ++ (trim s).drop ((trim s).length - 4)
  else trim s

/-- JavaScript `text.split(' ')`: split on each single space character;
consecutive spaces yield empty tokens, and the empty string yields one
empty token. -/
def splitOnSpace : List Char → List (List Char)
  | [] => [[]]
  | c :: rest =>
    if c = ' ' then [] :: splitOnSpace rest
    else
      match splitOnSpace rest with
      | [] => [[c]]
      | t :: ts => (c :: t) :: ts

/-- JavaScript `parts.join(' ')`. -/
def joinSpace : List (List Char) → List Char
  | [] => []
  | [t] => t
  | t :: u :: ts => t ++ ' ' :: joinSpace (u :: ts)

/-- The loop-break condition of `extractCountryFromTermination`: the token
uppercases to exactly `MOBILE` or `FIXED`, or contains an ASCII digit. -/
def isStopToken (t : List Char) : Bool :=
  (t.map Char.toUpper == "MOBILE".toList) ||
  (t.map Char.toUpper == "FIXED".toList) ||
  t.any Char.isDigit

/-- `extractCountryFromTermination` from `src/index.js`: split on single
spaces, collect tokens until the first stop token, return them rejoined if
any were collected, otherwise the whole input text. -/
def extractCountryFromTermination (text : List Char) : List Char :=
  let countryParts := (splitOnSpace text).takeWhile (fun p => !(isStopToken p))
  if 0 < countryParts.length then joinSpace countryParts else text

/-- Whitespace-delimited tokens (maximal runs of non-whitespace), as the
claim's words describe them. -/
def wsTokens : List Char → List (List Char)
  | [] => []
  | c :: rest =>
    if isJsWhitespace c then wsTokens rest
    else
      match rest, wsTokens rest with
      | [], _ => [[c]]
      | d :: _, ts =>
        if isJsWhitespace d then [c] :: ts
        else
          match ts with
          | [] => [[c]]
          | t :: ts2 => (c :: t) :: ts2

/-- What the claim C6 literally states: the leading whitespace-delimited
tokens joined by single spaces when a stopping token exists, the whole
text otherwise. -/
def extractCountryClaim (text : List Char) : List Char :=
  let toks := wsTokens text
  if toks.any isStopToken then
    joinSpace (toks.takeWhile (fun p => !(isStopToken p)))
  else text

/-- The amended description of country extraction, matching the source:
single-space splitting, and the whole text returned whenever no token was
collected before the first stop token. -/
def extractCountryAmended (text : List Char) : List Char :=
  let lead := (splitOnSpace text).takeWhile (fun p => !(isStopToken p))
  if lead.isEmpty then text else joinSpace lead

example : extractCountryFromTermination ("UNITED STATES MOBILE 123".toList)
    = "UNITED STATES".toList := by decide
example : extractCountryFromTermination ("FRANCE".toList) = "FRANCE".toList := by decide
example : extractCountryFromTermination ("MOBILE".toList) = "MOBILE".toList := by decide
example : extractCountryClaim ("MOBILE".toList) = [] := by decide
example : maskNumber ("15551234567".toList) = "155***4567".toList := by decide
example : maskNumber ("1234567".toList) = "1234567".toList := by decide

/-! ## Event extraction (rows of the live-calls tables) -/

/-- A character the regex classes `['"]` and `[^'"]` pivot on. -/
def isQuoteChar (c : Char) : Bool := (c == Char.ofNat 39) || (c == Char.ofNat 34)

/-- Matching the regex `Play\(['"]([^'"]+)['"],\s*['"]([^'"]+)['"]\)` at the
head of the list.  The character classes exclude their own delimiters, so
the greedy regex match is deterministic and needs no backtracking. -/
def matchPlayAt (l : List Char) : Option (List Char × List Char) :=
  match l with
  | 'P' :: 'l' :: 'a' :: 'y' :: '(' :: q1 :: rest1 =>
    if isQuoteChar q1 then
      let did := rest1.takeWhile (fun c => !(isQuoteChar c))
      match rest1.dropWhile (fun c => !(isQuoteChar c)) with
      | _q2 :: ',' :: rest3 =>
        if did.isEmpty then none
        else
          match rest3.dropWhile isJsWhitespace with
          | q3 :: rest5 =>
            if isQuoteChar q3 then
              let uuid := rest5.takeWhile (fun c => !(isQuoteChar c))
              match rest5.dropWhile (fun c => !(isQuoteChar c)) with
              | _q4 :: ')' :: _ => if uuid.isEmpty then none else some (did, uuid)
              | _ => none
            else none
          | [] => none
      | _ => none
    else none
  | _ => none

/-- Leftmost match of the `Play('<did>','<uuid>')` regex: try each start
position from the left, as the JavaScript regex engine does. -/
def matchPlay : List Char → Option (List Char × List Char)
  | [] => none
  | c :: rest =>
    match matchPlayAt (c :: rest) with
    | some r => some r
    | none => matchPlay rest

/-- One table row as seen by the monitoring loop: the text of its `td`
cells and the `onclick` attributes of its `button` elements, in document
order. -/
structure Row where
  tds : List (List Char)
  buttons : List (List Char)
deriving DecidableEq

/-- The call metadata built in the monitoring loop (spec `CallEvent`). -/
structure CallEvent where
  country : List Char
  rawNumber : List Char
  cliNumber : List Char
  audioUrl : List Char
  dedupKey : List Char
deriving DecidableEq

/-- The audio locator built in the monitoring loop from `did` and `uuid`. -/
def mkAudioUrl (did uuid : List Char) : List Char :=
  "https://www.orangecarrier.com/live/calls/sound?did=".toList ++ did ++
  "&uuid=".toList ++ uuid

/-- Contiguous-substring test (CSS `[attr*=value]` matching). -/
def containsSub (pat : List Char) : List Char → Bool
  | [] => pat.isEmpty
  | c :: rest => pat.isPrefixOf (c :: rest) || containsSub pat rest

/-- The cheerio selector `button[onclick*='Play']`: the first button whose
`onclick` attribute contains the substring `Play`. -/
def findPlayButton (row : Row) : Option (List Char) :=
  row.buttons.find? (fun a => containsSub ("Play".toList) a)

/-- The per-row logic of the monitoring loop (`src/index.js`, `main`):
rows need more than two columns and a well-formed `Play` action; cell
texts are trimmed; `dedupKey = cliNumber + '_' + uuid`. -/
def extractEventFromRow (row : Row) : Option CallEvent :=
  if 2 < row.tds.length then
    match findPlayButton row with
    | none => none
    | some attr =>
      match matchPlay attr with
      | none => none
      | some (did, uuid) =>
        let cliNumber := trim (row.tds.getD 2 [])
        some { country := extractCountryFromTermination (trim (row.tds.getD 0 []))
             , rawNumber := trim (row.tds.getD 1 [])
             , cliNumber := cliNumber
             , audioUrl := mkAudioUrl did uuid
             , dedupKey := cliNumber ++ '_' :: uuid }
  else none

/-- The events one page snapshot yields, in row order. -/
def extractEvents (rows : List Row) : List CallEvent :=
  rows.filterMap extractEventFromRow

/-- A single quote character, for building attribute strings. -/
def sq : Char := Char.ofNat 39

/-- The onclick attribute of the end-to-end example. -/
def exampleOnclick : List Char :=
  "Play(".toList ++ sq :: "did9".toList ++ sq :: ',' :: sq :: "uuid9".toList ++
  sq :: [')']

/-- The single row of the end-to-end example snapshot. -/
def exampleRow : Row :=
  { tds := ["USA MOBILE 1".toList, "15551234567".toList, "CLI1".toList]
  , buttons := [exampleOnclick] }

/-- The event the spec's end-to-end example expects. -/
def exampleEvent : CallEvent :=
  { country := "USA".toList
  , rawNumber := "15551234567".toList
  , cliNumber := "CLI1".toList
  , audioUrl := mkAudioUrl ("did9".toList) ("uuid9".toList)
  , dedupKey := "CLI1_uuid9".toList }

example : matchPlay exampleOnclick = some ("did9".toList, "uuid9".toList) := by decide
example : extractEvents [exampleRow] = [exampleEvent] := by decide

/-! ## Monitoring loop: deduplication and pipeline launches

The loop keeps a `Set` of processed call ids.  For each extracted event
whose id is new, it adds the id to the set synchronously and only then
invokes the pipeline (`sendInstantNotification` is the first asynchronous
step).  We record both steps in an action trace. -/

/-- Observable actions of the deduplication logic. -/
inductive MAct where
  | addKey (k : List Char)
  | startPipeline (k : List Char)
deriving DecidableEq

/-- State of the loop: the processed-ids set (as a list, newest first) and
the action trace so far. -/
def LoopState := List (List Char) × List MAct

/-- One row of one tick: extract, test membership in `processedCalls`, and
on a new id add it and start the pipeline (`src/index.js` lines 354-395). -/
def handleRow (st : List (List Char) × List MAct) (row : Row) :
    List (List Char) × List MAct :=
  match extractEventFromRow row with
  | none => st
  | some ev =>
    if ev.dedupKey ∈ st.1 then st
    else (ev.dedupKey :: st.1,
          st.2 ++ [MAct.addKey ev.dedupKey, MAct.startPipeline ev.dedupKey])

/-- One poll tick over a page snapshot: the `each` over the merged rows. -/
def pollTick (st : List (List Char) × List MAct) (snapshot : List Row) :
    List (List Char) × List MAct :=
  snapshot.foldl handleRow st

/-- A whole run: any number of poll ticks starting from the empty set. -/
def runTicks (snaps : List (List Row)) : List (List Char) × List MAct :=
  snaps.foldl pollTick ([], [])

/-- The two-action block emitted for one new key. -/
def keyBlock (k : List Char) : List MAct :=
  [MAct.addKey k, MAct.startPipeline k]

/-- Concatenation of the blocks of a list of keys. -/
def blocksOf : List (List Char) → List MAct
  | [] => []
  | k :: ks => MAct.addKey k :: MAct.startPipeline k :: blocksOf ks

/-! ## Notification pipeline

Outcomes of the external calls are fixed by an environment; each `.error`
models the corresponding promise rejecting / exception being thrown, each
`.ok` a successful completion.  Functions return the trace of observable
effects together with their result; a `Except.error` result means an
exception propagates to the caller. -/

/-- Observable effects of one pipeline instance. -/
inductive PAct where
  | sendTextCall
  | armDelay
  | fetchAudio
  | writeWav
  | convert
  | sendAudioCall
  | deleteMessage (id : Nat)
  | unlinkWav
  | unlinkMp3
deriving DecidableEq

/-- Decidable equality for `Except`, needed to evaluate the pipeline on
concrete environments. -/
def exceptDecEq {ε α : Type} [DecidableEq ε] [DecidableEq α] :
    DecidableEq (Except ε α)
  | .error a, .error b =>
    if h : a = b then .isTrue (by rw [h])
    else .isFalse (by intro hh; cases hh; exact h rfl)
  | .error _, .ok _ => .isFalse (by intro hh; cases hh)
  | .ok _, .error _ => .isFalse (by intro hh; cases hh)
  | .ok a, .ok b =>
    if h : a = b then .isTrue (by rw [h])
    else .isFalse (by intro hh; cases hh; exact h rfl)

instance {ε α : Type} [DecidableEq ε] [DecidableEq α] : DecidableEq (Except ε α) :=
  exceptDecEq

/-- Outcomes of the pipeline's external calls for one event. -/
structure PipeEnv where
  /-- `axios.post` of the instant alert: the returned `message_id`, or a
  thrown error. -/
  sendTextResult : Except String Nat
  /-- `axios.get` of the WAV audio. -/
  fetchResult : Except String Unit
  /-- The ffmpeg conversion promise: `resolve` or `reject`. -/
  convertResult : Except String Unit
  /-- `axios.post` of `sendAudio` inside `sendAudioToTelegramGroup`. -/
  sendAudioResult : Except String Unit
  /-- `axios.post` of `deleteMessage` inside `deleteTelegramMessage`. -/
  deleteResult : Except String Unit
deriving DecidableEq

/-- `sendAudioToTelegramGroup` from `src/index.js`: posts the audio, and
catches any failure internally, returning `false` instead of throwing. -/
def sendAudioToTelegramGroup (env : PipeEnv) : List PAct × Bool :=
  match env.sendAudioResult with
  | .ok _ => ([PAct.sendAudioCall], true)
  | .error _ => ([PAct.sendAudioCall], false)

/-- `deleteTelegramMessage` from `src/index.js`: posts the deletion, and
catches any failure internally, returning `false` instead of throwing. -/
def deleteTelegramMessage (env : PipeEnv) (id : Nat) : List PAct × Bool :=
  match env.deleteResult with
  | .ok _ => ([PAct.deleteMessage id], true)
  | .error _ => ([PAct.deleteMessage id], false)

/-- The `try` block of `sendInstantNotification`: post the alert text and
extract `response.data.result.message_id`. -/
def sendInstantNotificationBody (env : PipeEnv) : List PAct × Except String Nat :=
  ([PAct.sendTextCall], env.sendTextResult)

/-- `sendInstantNotification` from `src/index.js`: the body wrapped in the
`catch` that logs the error and returns `null` (here `none`).  The result
is `Except`-valued so that an escaping exception would be visible; the
function in fact always returns `.ok`. -/
def sendInstantNotification (env : PipeEnv) : List PAct × Except String (Option Nat) :=
  match sendInstantNotificationBody env with
  | (tr, .ok id) => (tr, .ok (some id))
  | (tr, .error _) => (tr, .ok none)

/-- The `try` block of `processCallWorker`: fetch the WAV, write it,
convert to MP3, send the audio (result ignored), delete the original alert
when a message id is at hand, then unlink both temporary files. -/
def processCallWorkerBody (env : PipeEnv) (notificationMessageId : Option Nat) :
    List PAct × Except String Unit :=
  match env.fetchResult with
  | .error e => ([PAct.fetchAudio], .error e)
  | .ok _ =>
    match env.convertResult with
    | .error e => ([PAct.fetchAudio, PAct.writeWav, PAct.convert], .error e)
    | .ok _ =>
      let sendTr := (sendAudioToTelegramGroup env).1
      let delTr :=
        match notificationMessageId with
        | some id => (deleteTelegramMessage env id).1
        | none => []
      ([PAct.fetchAudio, PAct.writeWav, PAct.convert] ++ sendTr ++ delTr ++
        [PAct.unlinkWav, PAct.unlinkMp3], .ok ())

/-- `processCallWorker` from `src/index.js`: the body wrapped in the
`catch` that only logs, so the worker itself never throws. -/
def processCallWorker (env : PipeEnv) (notificationMessageId : Option Nat) :
    List PAct :=
  (processCallWorkerBody env notificationMessageId).1

/-- The pipeline launch in the monitoring loop: send the instant alert;
when a message id came back, arm the 20 s delay and run the worker; when
`null` came back do nothing more; a rejected alert promise would only be
logged by the `.catch` handler. -/
def launchPipeline (env : PipeEnv) : List PAct :=
  match sendInstantNotification env with
  | (tr, .ok (some id)) => tr ++ PAct.armDelay :: processCallWorker env (some id)
  | (tr, .ok none) => tr
  | (tr, .error _) => tr

/-! ## Login / session acquisition -/

/-- Resource events of `loginToDashboard`: browser launches and closes. -/
inductive LAct where
  | launch
  | close
deriving DecidableEq

/-- Outcomes of the external steps of one login attempt.  `gotoOk` covers
page creation and navigation to the login page; the email/password scan is
a pure function of the page, abstracted by the two `Found` flags. -/
structure AttemptEnv where
  launchOk : Bool
  gotoOk : Bool
  emailFound : Bool
  passFound : Bool
  submitFound : Bool
  urlOk : Bool
  dashOk : Bool
  liveGotoOk : Bool
  cookies : Nat
deriving DecidableEq

/-- The `try` block of one iteration of `loginToDashboard`: launch, open
the login page, scan for the credential fields, submit, verify, and on
success navigate to the live-calls view and capture cookies (returned as
the abstract session handle). -/
def attemptOnce (e : AttemptEnv) : List LAct × Except Unit Nat :=
  if !e.launchOk then ([], .error ())
  else if !e.gotoOk then ([LAct.launch], .error ())
  else if e.emailFound && e.passFound then
    if e.submitFound then
      if e.urlOk && e.dashOk then
        if e.liveGotoOk then ([LAct.launch], .ok e.cookies)
        else ([LAct.launch], .error ())
      else ([LAct.launch], .error ())
    else ([LAct.launch], .error ())
  else ([LAct.launch], .error ())

/-- The retry loop of `loginToDashboard`: while `attempt < maxRetries`,
run one attempt; on an exception increment `attempt`, close the browser
when one was launched, and return `none` once `attempt >= maxRetries`. -/
def loginGo (envs : Nat → AttemptEnv) (maxRetries attempt : Nat) :
    List LAct × Option Nat :=
  if _h : attempt < maxRetries then
    match attemptOnce (envs attempt) with
    | (tr, .ok s) => (tr, some s)
    | (tr, .error _) =>
      let ctr := if (envs attempt).launchOk then [LAct.close] else []
      if maxRetries ≤ attempt + 1 then (tr ++ ctr, none)
      else
        let rec2 := loginGo envs maxRetries (attempt + 1)
        (tr ++ (ctr ++ rec2.1), rec2.2)
  else ([], none)
termination_by maxRetries - attempt

/-- `loginToDashboard` from `src/index.js`, starting at attempt 0. -/
def loginToDashboard (envs : Nat → AttemptEnv) (maxRetries : Nat) :
    List LAct × Option Nat :=
  loginGo envs maxRetries 0

/-! ## String lemmas -/

theorem head?_dropWhile (p : Char → Bool) (l : List Char) :
    ∀ c, (l.dropWhile p).head? = some c → p c = false := by
  induction l with
  | nil => intro c h; simp [List.dropWhile] at h
  | cons a t ih =>
    intro c h
    by_cases ha : p a
    · rw [List.dropWhile_cons, if_pos ha] at h
      exact ih c h
    · rw [List.dropWhile_cons, if_neg ha] at h
      simp at h
      rw [← h]
      exact Bool.eq_false_iff.2 ha

theorem dropWhile_eq_self_of_head (p : Char → Bool) (l : List Char)
    (h : ∀ c, l.head? = some c → p c = false) : l.dropWhile p = l := by
  cases l with
  | nil => rfl
  | cons a t =>
    rw [List.dropWhile_cons, if_neg]
    intro ha
    have := h a rfl
    rw [this] at ha
    exact Bool.false_ne_true ha

theorem dropWhile_eq_self_of_all (p : Char → Bool) (l : List Char)
    (h : ∀ c ∈ l, p c = false) : l.dropWhile p = l := by
  cases l with
  | nil => rfl
  | cons a t =>
    rw [List.dropWhile_cons, if_neg]
    intro ha
    rw [h a (List.mem_cons_self a t)] at ha
    exact Bool.false_ne_true ha

theorem trim_eq_self_of_all (l : List Char)
    (h : ∀ c ∈ l, isJsWhitespace c = false) : trim l = l := by
  unfold trim
  rw [dropWhile_eq_self_of_all _ l h,
      dropWhile_eq_self_of_all _ l.reverse (fun c hc => h c (List.mem_reverse.1 hc)),
      List.reverse_reverse]

theorem head?_trim (l : List Char) :
    ∀ c, (trim l).head? = some c → isJsWhitespace c = false := by
  intro c hc
  unfold trim at hc
  rw [List.head?_reverse] at hc
  have hne : (l.dropWhile isJsWhitespace).reverse.dropWhile isJsWhitespace ≠ [] := by
    intro h0
    rw [h0] at hc
    simp at hc
  have hsplit := List.takeWhile_append_dropWhile isJsWhitespace
    (l.dropWhile isJsWhitespace).reverse
  have : (l.dropWhile isJsWhitespace).reverse.getLast? = some c := by
    rw [← hsplit, List.getLast?_append_of_ne_nil _ hne]
    exact hc
  rw [List.getLast?_reverse] at this
  exact head?_dropWhile isJsWhitespace l c this

theorem getLast?_trim (l : List Char) :
    ∀ c, (trim l).getLast? = some c → isJsWhitespace c = false := by
  intro c hc
  unfold trim at hc
  rw [List.getLast?_reverse] at hc
  exact head?_dropWhile isJsWhitespace _ c hc

theorem trim_eq_self_of_ends (l : List Char)
    (hh : ∀ c, l.head? = some c → isJsWhitespace c = false)
    (hl : ∀ c, l.getLast? = some c → isJsWhitespace c = false) : trim l = l := by
  cases l with
  | nil => rfl
  | cons a t =>
    unfold trim
    rw [dropWhile_eq_self_of_head _ _ hh]
    rw [dropWhile_eq_self_of_head, List.reverse_reverse]
    intro c hc
    rw [List.head?_reverse] at hc
    exact hl c hc

theorem trim_trim (l : List Char) : trim (trim l) = trim l :=
  trim_eq_self_of_ends (trim l) (head?_trim l) (getLast?_trim l)

theorem digit_not_ws (c : Char) (h : c.isDigit = true) : isJsWhitespace c = false := by
  cases hw : isJsWhitespace c
  · rfl
  · exfalso
    simp only [isJsWhitespace, Bool.or_eq_true, beq_iff_eq] at hw
    rcases hw with ((((((rfl | rfl) | rfl) | rfl) | rfl) | rfl) | rfl) <;>
      exact absurd h (by decide)

/-- C8: for every numeric string of length greater than 7, masking returns
the first 3 characters, `***`, then the last 4 characters; for every
numeric string of length at most 7, masking returns the string unchanged. -/
theorem mask_c8 (s : List Char) (hd : ∀ c ∈ s, c.isDigit = true) :
    (7 < s.length →
      maskNumber s = s.take 3 ++ "***".toList ++ s.drop (s.length - 4)) ∧
    (s.length ≤ 7 → maskNumber s = s) := by
  have ht : trim s = s :=
    trim_eq_self_of_all s (fun c hc => digit_not_ws c (hd c hc))
  unfold maskNumber
  rw [ht]
  constructor
  · intro h7
    rw [if_pos h7]
  · intro h7
    rw [if_neg (by omega)]

/-- Witness for C8 at the spec's own example number. -/
theorem mask_c8_witness :
    (∀ c ∈ ("15551234567".toList), c.isDigit = true) ∧
    maskNumber ("15551234567".toList)
      = ("15551234567".toList).take 3 ++ "***".toList ++
        ("15551234567".toList).drop (("15551234567".toList).length - 4) :=
  ⟨by decide, (mask_c8 ("15551234567".toList) (by decide)).1 (by decide)⟩

theorem maskNumber_masked_fixed (t : List Char) (h7 : 7 < t.length)
    (hh : ∀ c, t.head? = some c → isJsWhitespace c = false)
    (hl : ∀ c, t.getLast? = some c → isJsWhitespace c = false) :
    maskNumber (t.take 3 ++ "***".toList ++ t.drop (t.length - 4))
      = t.take 3 ++ "***".toList ++ t.drop (t.length - 4) := by
  have hlt3 : (t.take 3).length = 3 := by rw [List.length_take]; omega
  have hld : (t.drop (t.length - 4)).length = 4 := by rw [List.length_drop]; omega
  have hdne : t.drop (t.length - 4) ≠ [] := by
    intro h0
    rw [h0] at hld
    simp at hld
  have hmh : ∀ c,
      (t.take 3 ++ "***".toList ++ t.drop (t.length - 4)).head? = some c →
      isJsWhitespace c = false := by
    intro c hc
    obtain ⟨a, t', rfl⟩ : ∃ a t', t = a :: t' := by
      cases t with
      | nil => simp at h7
      | cons a t' => exact ⟨a, t', rfl⟩
    have h3 : (a :: t').take 3 = a :: t'.take 2 := rfl
    rw [h3] at hc
    simp only [List.cons_append, List.head?_cons, Option.some.injEq] at hc
    rw [← hc]
    exact hh a rfl
  have hml : ∀ c,
      (t.take 3 ++ "***".toList ++ t.drop (t.length - 4)).getLast? = some c →
      isJsWhitespace c = false := by
    intro c hc
    rw [List.getLast?_append_of_ne_nil _ hdne] at hc
    refine hl c ?_
    conv_lhs => rw [← List.take_append_drop (t.length - 4) t]
    rw [List.getLast?_append_of_ne_nil _ hdne]
    exact hc
  have htr : trim (t.take 3 ++ "***".toList ++ t.drop (t.length - 4))
      = t.take 3 ++ "***".toList ++ t.drop (t.length - 4) :=
    trim_eq_self_of_ends _ hmh hml
  have hlm : (t.take 3 ++ "***".toList ++ t.drop (t.length - 4)).length = 10 := by
    rw [List.length_append, List.length_append, hlt3, hld]
    rfl
  have hA : (t.take 3 ++ "***".toList ++ t.drop (t.length - 4)).take 3
      = t.take 3 := by
    rw [List.append_assoc]
    exact List.take_left' hlt3
  have hB : (t.take 3 ++ "***".toList ++ t.drop (t.length - 4)).drop (10 - 4)
      = t.drop (t.length - 4) :=
    List.drop_left' (by rw [List.length_append, hlt3]; rfl)
  unfold maskNumber
  rw [htr, hlm, if_pos (by omega), hA, hB]

/-- C9: masking is idempotent on every input string. -/
theorem mask_idem_c9 (s : List Char) :
    maskNumber (maskNumber s) = maskNumber s := by
  by_cases h7 : 7 < (trim s).length
  · have hm : maskNumber s
        = (trim s).take 3 ++ "***".toList ++ (trim s).drop ((trim s).length - 4) := by
      unfold maskNumber
      rw [if_pos h7]
    rw [hm]
    exact maskNumber_masked_fixed (trim s) h7 (head?_trim s) (getLast?_trim s)
  · have hm : maskNumber s = trim s := by
      unfold maskNumber
      rw [if_neg h7]
    rw [hm]
    unfold maskNumber
    rw [trim_trim, if_neg h7]

/-! ## Country extraction -/

theorem takeWhile_eq_self_of_all (p : List Char → Bool) (l : List (List Char))
    (h : ∀ x ∈ l, p x = true) : l.takeWhile p = l := by
  induction l with
  | nil => rfl
  | cons a t ih =>
    rw [List.takeWhile_cons, if_pos (h a (List.mem_cons_self a t)),
        ih (fun x hx => h x (List.mem_cons_of_mem a hx))]

theorem splitOnSpace_ne_nil (l : List Char) : splitOnSpace l ≠ [] := by
  cases l with
  | nil => simp [splitOnSpace]
  | cons c rest =>
    unfold splitOnSpace
    by_cases hc : c = ' '
    · rw [if_pos hc]
      simp
    · rw [if_neg hc]
      cases hs : splitOnSpace rest with
      | nil => simp
      | cons t ts => simp

theorem joinSpace_splitOnSpace (l : List Char) :
    joinSpace (splitOnSpace l) = l := by
  induction l with
  | nil => rfl
  | cons c rest ih =>
    unfold splitOnSpace
    by_cases hc : c = ' '
    · rw [if_pos hc]
      cases hs : splitOnSpace rest with
      | nil => exact absurd hs (splitOnSpace_ne_nil rest)
      | cons t ts =>
        rw [hs] at ih
        subst hc
        simpa [joinSpace] using ih
    · rw [if_neg hc]
      cases hs : splitOnSpace rest with
      | nil => exact absurd hs (splitOnSpace_ne_nil rest)
      | cons t ts =>
        rw [hs] at ih
        cases ts with
        | nil =>
          simp only [joinSpace] at ih ⊢
          rw [ih]
        | cons u us =>
          simp only [joinSpace, List.cons_append] at ih ⊢
          rw [ih]

/-- C6 counterexample: on the input `MOBILE` (whose first token is already
a stopping token) the source returns the entire input, while the claim's
description returns the empty string. -/
theorem country_c6_counterexample :
    extractCountryFromTermination ("MOBILE".toList)
      ≠ extractCountryClaim ("MOBILE".toList)
    ∧ extractCountryFromTermination ("MOBILE".toList) = "MOBILE".toList
    ∧ extractCountryClaim ("MOBILE".toList) = [] := by
  refine ⟨by decide, by decide, by decide⟩

/-- C6 (amended): country extraction splits on single space characters
(not general whitespace); it collects tokens until the first token that
uppercases to exactly `MOBILE` or `FIXED` or contains a digit; if at least
one token was collected they are rejoined with single spaces, otherwise
(in particular when the first token stops) the entire input text is
returned; when no stopping token exists the result is the entire input
text; the tokens `UNITED STATES MOBILE 123` yield `UNITED STATES` and
`FRANCE` yields `FRANCE`. -/
theorem country_c6_amended :
    (∀ text, extractCountryFromTermination text = extractCountryAmended text) ∧
    (∀ text, ((splitOnSpace text).all fun p => !(isStopToken p)) = true →
      extractCountryFromTermination text = text) ∧
    extractCountryFromTermination ("UNITED STATES MOBILE 123".toList)
      = "UNITED STATES".toList ∧
    extractCountryFromTermination ("FRANCE".toList) = "FRANCE".toList := by
  refine ⟨?_, ?_, by decide, by decide⟩
  · intro text
    unfold extractCountryFromTermination extractCountryAmended
    cases hs : (splitOnSpace text).takeWhile (fun p => !(isStopToken p)) with
    | nil => simp
    | cons t ts => simp
  · intro text hall
    have htw : (splitOnSpace text).takeWhile (fun p => !(isStopToken p))
        = splitOnSpace text :=
      takeWhile_eq_self_of_all _ _ (List.all_eq_true.1 hall)
    unfold extractCountryFromTermination
    rw [htw]
    cases hs : splitOnSpace text with
    | nil => exact absurd hs (splitOnSpace_ne_nil text)
    | cons t ts =>
      rw [if_pos (by simp), ← hs, joinSpace_splitOnSpace]

/-- Witness for the amended C6 at the spec's `FRANCE` example. -/
theorem country_c6_witness :
    (((splitOnSpace ("FRANCE".toList)).all fun p => !(isStopToken p)) = true) ∧
    extractCountryFromTermination ("FRANCE".toList) = "FRANCE".toList :=
  ⟨by decide, country_c6_amended.2.1 ("FRANCE".toList) (by decide)⟩

/-! ## Extractor claims -/

/-- C7: `dedupKey = cliNumber + '_' + uuid` and the audio locator is built
deterministically from `did` and `uuid`; rows with two or fewer columns or
without a well-formed two-argument `Play` action produce no event; the
spec's example row yields exactly the specified event. -/
theorem extractor_c7 :
    (∀ row : Row, row.tds.length ≤ 2 → extractEventFromRow row = none) ∧
    (∀ row : Row, findPlayButton row = none → extractEventFromRow row = none) ∧
    (∀ (row : Row) attr, findPlayButton row = some attr → matchPlay attr = none →
      extractEventFromRow row = none) ∧
    (∀ (row : Row) attr did uuid, 2 < row.tds.length →
      findPlayButton row = some attr → matchPlay attr = some (did, uuid) →
      ∃ ev, extractEventFromRow row = some ev ∧
        ev.cliNumber = trim (row.tds.getD 2 []) ∧
        ev.dedupKey = ev.cliNumber ++ '_' :: uuid ∧
        ev.audioUrl = mkAudioUrl did uuid) ∧
    extractEvents [exampleRow] = [exampleEvent] := by
  refine ⟨?_, ?_, ?_, ?_, by decide⟩
  · intro row h
    unfold extractEventFromRow
    rw [if_neg (by omega)]
  · intro row h
    simp only [extractEventFromRow, h]
    split <;> rfl
  · intro row attr h1 h2
    simp only [extractEventFromRow, h1, h2]
    split <;> rfl
  · intro row attr did uuid hlen h1 h2
    simp only [extractEventFromRow, if_pos hlen, h1, h2]
    exact ⟨_, rfl, rfl, rfl, rfl⟩

/-- Witness for C7 at the spec's example row. -/
theorem extractor_c7_witness :
    ∃ ev, extractEventFromRow exampleRow = some ev ∧
      ev.cliNumber = trim (exampleRow.tds.getD 2 []) ∧
      ev.dedupKey = ev.cliNumber ++ '_' :: ("uuid9".toList) ∧
      ev.audioUrl = mkAudioUrl ("did9".toList) ("uuid9".toList) :=
  extractor_c7.2.2.2.1 exampleRow exampleOnclick ("did9".toList) ("uuid9".toList)
    (by decide) (by decide) (by decide)

/-! ## Pipeline claims -/

/-- Environment of an event whose audio send fails while everything else
succeeds, with alert message id 5. -/
def env2 : PipeEnv :=
  { sendTextResult := .ok 5, fetchResult := .ok (), convertResult := .ok ()
  , sendAudioResult := .error "boom", deleteResult := .ok () }

/-- Environment of an event whose ffmpeg conversion rejects. -/
def env3 : PipeEnv :=
  { sendTextResult := .ok 1, fetchResult := .ok (), convertResult := .error "ffmpeg"
  , sendAudioResult := .ok (), deleteResult := .ok () }

/-- Environment of an event whose instant alert post throws. -/
def env4 : PipeEnv :=
  { sendTextResult := .error "fail", fetchResult := .ok (), convertResult := .ok ()
  , sendAudioResult := .ok (), deleteResult := .ok () }

/-- C2 counterexample: when the audio send fails (`sendAudioToTelegramGroup`
returns `false`), the worker nonetheless deletes the original alert via its
message id, unlinks both temporary files, and completes without error —
contradicting the claim that the pipeline ends in `FAILED` with no deletion
and no cleanup. -/
theorem sendfail_c2_counterexample :
    env2.sendAudioResult = .error "boom" ∧
    (sendAudioToTelegramGroup env2).2 = false ∧
    PAct.deleteMessage 5 ∈ (processCallWorkerBody env2 (some 5)).1 ∧
    PAct.unlinkWav ∈ (processCallWorkerBody env2 (some 5)).1 ∧
    PAct.unlinkMp3 ∈ (processCallWorkerBody env2 (some 5)).1 ∧
    (processCallWorkerBody env2 (some 5)).2 = .ok () := by decide

/-- C2 (amended): if sending the converted audio fails, the send helper
catches the error and returns `false`, but the worker ignores that result
and proceeds: the original alert IS deleted via its `externalMessageId`,
both temporary files ARE deleted, and the worker completes successfully;
the failure is only logged, not terminal. -/
theorem sendfail_c2_amended (env : PipeEnv) (id : Nat) (e : String)
    (hf : env.fetchResult = .ok ()) (hc : env.convertResult = .ok ())
    (hs : env.sendAudioResult = .error e) :
    (sendAudioToTelegramGroup env).2 = false ∧
    (processCallWorkerBody env (some id)).2 = .ok () ∧
    PAct.deleteMessage id ∈ (processCallWorkerBody env (some id)).1 ∧
    PAct.unlinkWav ∈ (processCallWorkerBody env (some id)).1 ∧
    PAct.unlinkMp3 ∈ (processCallWorkerBody env (some id)).1 := by
  cases hdel : env.deleteResult <;>
    simp [processCallWorkerBody, sendAudioToTelegramGroup, deleteTelegramMessage,
      hf, hc, hs, hdel]

/-- Witness for the amended C2 at the concrete failing environment. -/
theorem sendfail_c2_witness :
    (sendAudioToTelegramGroup env2).2 = false ∧
    (processCallWorkerBody env2 (some 5)).2 = .ok () ∧
    PAct.deleteMessage 5 ∈ (processCallWorkerBody env2 (some 5)).1 ∧
    PAct.unlinkWav ∈ (processCallWorkerBody env2 (some 5)).1 ∧
    PAct.unlinkMp3 ∈ (processCallWorkerBody env2 (some 5)).1 :=
  sendfail_c2_amended env2 5 "boom" rfl rfl rfl

/-- C3: when conversion rejects after a successful fetch, the worker's try
block ends with that error (the pipeline fails): no audio send, no message
deletion, and neither temporary file is unlinked — in particular the
fetched WAV file is not deleted. -/
theorem conversion_fail_c3 (env : PipeEnv) (idOpt : Option Nat) (e : String)
    (hf : env.fetchResult = .ok ()) (hc : env.convertResult = .error e) :
    (processCallWorkerBody env idOpt).2 = .error e ∧
    PAct.sendAudioCall ∉ (processCallWorkerBody env idOpt).1 ∧
    (∀ i, PAct.deleteMessage i ∉ (processCallWorkerBody env idOpt).1) ∧
    PAct.unlinkWav ∉ (processCallWorkerBody env idOpt).1 ∧
    PAct.unlinkMp3 ∉ (processCallWorkerBody env idOpt).1 := by
  have hbody : processCallWorkerBody env idOpt
      = ([PAct.fetchAudio, PAct.writeWav, PAct.convert], .error e) := by
    simp only [processCallWorkerBody, hf, hc]
  rw [hbody]
  exact ⟨rfl, by simp, fun i => by simp, by simp, by simp⟩

/-- Witness for C3 at a concrete conversion-failure environment. -/
theorem conversion_fail_c3_witness :
    (processCallWorkerBody env3 (some 1)).2 = .error "ffmpeg" ∧
    PAct.sendAudioCall ∉ (processCallWorkerBody env3 (some 1)).1 ∧
    (∀ i, PAct.deleteMessage i ∉ (processCallWorkerBody env3 (some 1)).1) ∧
    PAct.unlinkWav ∉ (processCallWorkerBody env3 (some 1)).1 ∧
    PAct.unlinkMp3 ∉ (processCallWorkerBody env3 (some 1)).1 :=
  conversion_fail_c3 env3 (some 1) "ffmpeg" rfl rfl

/-- C4: when the instant alert fails (no message id is obtained), the
pipeline stops after the alert attempt: no delay is armed, no fetch,
conversion or audio send occurs, and no message deletion is attempted. -/
theorem alertfail_c4 (env : PipeEnv) (e : String)
    (h : env.sendTextResult = .error e) :
    launchPipeline env = [PAct.sendTextCall] ∧
    PAct.armDelay ∉ launchPipeline env ∧
    PAct.fetchAudio ∉ launchPipeline env ∧
    PAct.convert ∉ launchPipeline env ∧
    PAct.sendAudioCall ∉ launchPipeline env ∧
    (∀ i, PAct.deleteMessage i ∉ launchPipeline env) := by
  have hl : launchPipeline env = [PAct.sendTextCall] := by
    simp only [launchPipeline, sendInstantNotification, sendInstantNotificationBody, h]
  rw [hl]
  exact ⟨rfl, by simp, by simp, by simp, by simp, fun i => by simp⟩

/-- Witness for C4 at a concrete alert-failure environment. -/
theorem alertfail_c4_witness :
    launchPipeline env4 = [PAct.sendTextCall] ∧
    PAct.armDelay ∉ launchPipeline env4 ∧
    PAct.fetchAudio ∉ launchPipeline env4 ∧
    PAct.convert ∉ launchPipeline env4 ∧
    PAct.sendAudioCall ∉ launchPipeline env4 ∧
    (∀ i, PAct.deleteMessage i ∉ launchPipeline env4) :=
  alertfail_c4 env4 "fail" rfl

/-- C10: the instant-alert send is total at its interface: for every
outcome of the underlying post it returns `.ok` (no exception escapes to
the monitoring loop), with the message id on success and `none` (null) on
failure. -/
theorem notify_total_c10 (env : PipeEnv) :
    (∃ r, (sendInstantNotification env).2 = .ok r) ∧
    (∀ id, env.sendTextResult = .ok id →
      (sendInstantNotification env).2 = .ok (some id)) ∧
    (∀ e, env.sendTextResult = .error e →
      (sendInstantNotification env).2 = .ok none) := by
  refine ⟨?_, ?_, ?_⟩
  · cases h : env.sendTextResult with
    | ok id =>
      exact ⟨some id, by simp [sendInstantNotification, sendInstantNotificationBody, h]⟩
    | error e =>
      exact ⟨none, by simp [sendInstantNotification, sendInstantNotificationBody, h]⟩
  · intro id h
    simp [sendInstantNotification, sendInstantNotificationBody, h]
  · intro e h
    simp [sendInstantNotification, sendInstantNotificationBody, h]

/-- Witness for C10 at concrete success and failure environments. -/
theorem notify_total_c10_witness :
    (∃ r, (sendInstantNotification env4).2 = .ok r) ∧
    (sendInstantNotification env2).2 = .ok (some 5) ∧
    (sendInstantNotification env4).2 = .ok none :=
  ⟨(notify_total_c10 env4).1, (notify_total_c10 env2).2.1 5 rfl,
    (notify_total_c10 env4).2.2 "fail" rfl⟩

/-! ## Deduplication invariant -/

theorem blocksOf_append (a b : List (List Char)) :
    blocksOf (a ++ b) = blocksOf a ++ blocksOf b := by
  induction a with
  | nil => rfl
  | cons k ks ih => simp [blocksOf, ih]

/-- The loop invariant: the trace is exactly the concatenation of one
`[addKey k, startPipeline k]` block per processed key (in arrival order),
and the processed-keys set holds no duplicates. -/
def LoopInv (st : List (List Char) × List MAct) : Prop :=
  st.2 = blocksOf st.1.reverse ∧ st.1.Nodup

theorem handleRow_inv (st : List (List Char) × List MAct) (row : Row)
    (h : LoopInv st) : LoopInv (handleRow st row) := by
  obtain ⟨htr, hnd⟩ := h
  unfold handleRow
  cases hev : extractEventFromRow row with
  | none => exact ⟨htr, hnd⟩
  | some ev =>
    show LoopInv (if ev.dedupKey ∈ st.1 then st
      else (ev.dedupKey :: st.1,
            st.2 ++ [MAct.addKey ev.dedupKey, MAct.startPipeline ev.dedupKey]))
    by_cases hmem : ev.dedupKey ∈ st.1
    · rw [if_pos hmem]
      exact ⟨htr, hnd⟩
    · rw [if_neg hmem]
      refine ⟨?_, List.nodup_cons.2 ⟨hmem, hnd⟩⟩
      simp only [List.reverse_cons]
      rw [blocksOf_append, ← htr]
      rfl

theorem pollTick_inv (snapshot : List Row) (st : List (List Char) × List MAct)
    (h : LoopInv st) : LoopInv (pollTick st snapshot) := by
  unfold pollTick
  induction snapshot generalizing st with
  | nil => exact h
  | cons r rs ih => exact ih _ (handleRow_inv st r h)

theorem runTicks_inv (snaps : List (List Row)) : LoopInv (runTicks snaps) := by
  unfold runTicks
  have hgen : ∀ (ss : List (List Row)) (st : List (List Char) × List MAct),
      LoopInv st → LoopInv (ss.foldl pollTick st) := by
    intro ss
    induction ss with
    | nil => intro st h; exact h
    | cons s rest ih => intro st h; exact ih _ (pollTick_inv s st h)
  exact hgen snaps ([], []) ⟨rfl, List.nodup_nil⟩

theorem start_mem_blocksOf (ks : List (List Char)) (k : List Char)
    (h : MAct.startPipeline k ∈ blocksOf ks) : k ∈ ks := by
  induction ks with
  | nil => simp [blocksOf] at h
  | cons a t ih =>
    simp only [blocksOf, List.mem_cons] at h
    rcases h with h | h | h
    · exact absurd h (by simp)
    · injection h with h2
      rw [h2]
      exact List.mem_cons_self a t
    · exact List.mem_cons_of_mem a (ih h)

theorem count_start_blocksOf_le_one (ks : List (List Char)) (hnd : ks.Nodup)
    (k : List Char) :
    List.count (MAct.startPipeline k) (blocksOf ks) ≤ 1 := by
  induction ks with
  | nil => simp [blocksOf]
  | cons a t ih =>
    obtain ⟨hna, hnt⟩ := List.nodup_cons.1 hnd
    by_cases hak : a = k
    · subst hak
      have h0 : MAct.startPipeline a ∉ blocksOf t :=
        fun hm => hna (start_mem_blocksOf t a hm)
      simp [blocksOf, List.count_cons, List.count_eq_zero.2 h0]
    · have : List.count (MAct.startPipeline k) (blocksOf (a :: t))
          = List.count (MAct.startPipeline k) (blocksOf t) := by
        simp [blocksOf, List.count_cons, hak]
      rw [this]
      exact ih hnt

theorem blocksOf_split (ks : List (List Char)) (k : List Char) (h : k ∈ ks) :
    ∃ pre suf, blocksOf ks = pre ++ MAct.addKey k :: MAct.startPipeline k :: suf := by
  obtain ⟨s, t, rfl⟩ := List.append_of_mem h
  exact ⟨blocksOf s, blocksOf t, by rw [blocksOf_append]; rfl⟩

/-- C1: across any number of poll ticks over any sequence of page
snapshots, at most one pipeline is started per dedup key, and every
pipeline start is immediately preceded in the trace by the addition of its
key to the deduplication set (so the key is recorded before the alert
send, the pipeline's first asynchronous step, begins). -/
theorem dedup_c1 (snaps : List (List Row)) (k : List Char) :
    List.count (MAct.startPipeline k) (runTicks snaps).2 ≤ 1 ∧
    (MAct.startPipeline k ∈ (runTicks snaps).2 →
      ∃ pre suf, (runTicks snaps).2
        = pre ++ MAct.addKey k :: MAct.startPipeline k :: suf) := by
  obtain ⟨htr, hnd⟩ := runTicks_inv snaps
  constructor
  · rw [htr]
    exact count_start_blocksOf_le_one _ (List.nodup_reverse.2 hnd) k
  · intro hmem
    rw [htr] at hmem ⊢
    exact blocksOf_split _ k (start_mem_blocksOf _ k hmem)

/-- Witness for C1: two identical snapshots of the example row start the
pipeline exactly once for the example key, with the key recorded first. -/
theorem dedup_c1_witness :
    List.count (MAct.startPipeline ("CLI1_uuid9".toList))
      (runTicks [[exampleRow], [exampleRow]]).2 ≤ 1 ∧
    ∃ pre suf, (runTicks [[exampleRow], [exampleRow]]).2
      = pre ++ MAct.addKey ("CLI1_uuid9".toList)
          :: MAct.startPipeline ("CLI1_uuid9".toList) :: suf :=
  ⟨(dedup_c1 [[exampleRow], [exampleRow]] ("CLI1_uuid9".toList)).1,
    (dedup_c1 [[exampleRow], [exampleRow]] ("CLI1_uuid9".toList)).2 (by decide)⟩

/-! ## Login claims -/

theorem attemptOnce_no_fields (e : AttemptEnv) (hL : e.launchOk = true)
    (hG : e.gotoOk = true) (hEP : ¬(e.emailFound = true ∧ e.passFound = true)) :
    attemptOnce e = ([LAct.launch], .error ()) := by
  have hb : (e.emailFound && e.passFound) = false := by
    cases hE : e.emailFound <;> cases hP : e.passFound <;> simp_all
  simp [attemptOnce, hL, hG, hb]

theorem loginGo_all_fail (envs : Nat → AttemptEnv)
    (h : ∀ i, (envs i).launchOk = true ∧ (envs i).gotoOk = true ∧
      ¬((envs i).emailFound = true ∧ (envs i).passFound = true)) :
    ∀ (k m a : Nat), m - a = k →
      loginGo envs m a
        = (List.flatten (List.replicate k [LAct.launch, LAct.close]), none) := by
  intro k
  induction k with
  | zero =>
    intro m a hk
    have hna : ¬ a < m := by omega
    unfold loginGo
    rw [dif_neg hna]
    simp
  | succ k ih =>
    intro m a hk
    have ha : a < m := by omega
    obtain ⟨hL, hG, hEP⟩ := h a
    unfold loginGo
    rw [dif_pos ha, attemptOnce_no_fields (envs a) hL hG hEP]
    simp only [hL, if_true]
    by_cases hm : m ≤ a + 1
    · rw [if_pos hm]
      have hk0 : k = 0 := by omega
      subst hk0
      simp
    · rw [if_neg hm]
      rw [ih m (a + 1) (by omega)]
      simp [List.replicate_succ]

/-- C5: when the credential fields are never detected (attempts launch and
load the page but the scan finds no email/password pair), session
acquisition performs exactly `maxRetries` attempts, launching and then
closing the browser on every attempt including the last, and returns no
session. -/
theorem login_c5 (envs : Nat → AttemptEnv) (m : Nat)
    (h : ∀ i, (envs i).launchOk = true ∧ (envs i).gotoOk = true ∧
      ¬((envs i).emailFound = true ∧ (envs i).passFound = true)) :
    loginToDashboard envs m
      = (List.flatten (List.replicate m [LAct.launch, LAct.close]), none) ∧
    List.count LAct.launch (loginToDashboard envs m).1 = m ∧
    List.count LAct.close (loginToDashboard envs m).1 = m := by
  have hrun : loginToDashboard envs m
      = (List.flatten (List.replicate m [LAct.launch, LAct.close]), none) :=
    loginGo_all_fail envs h m m 0 (by omega)
  refine ⟨hrun, ?_, ?_⟩ <;> rw [hrun] <;> clear hrun
  · induction m with
    | zero => simp
    | succ n ih =>
      simp only [List.replicate_succ, List.flatten_cons, List.count_append] at ih ⊢
      rw [ih]
      simp [List.count_cons]
      omega
  · induction m with
    | zero => simp
    | succ n ih =>
      simp only [List.replicate_succ, List.flatten_cons, List.count_append] at ih ⊢
      rw [ih]
      simp [List.count_cons]
      omega

/-- A concrete attempt environment whose scan never finds the fields. -/
def envA : AttemptEnv :=
  { launchOk := true, gotoOk := true, emailFound := false, passFound := false
  , submitFound := true, urlOk := true, dashOk := true, liveGotoOk := true
  , cookies := 0 }

/-- Witness for C5 with the source's default of 2 attempts. -/
theorem login_c5_witness :
    loginToDashboard (fun _ => envA) 2
      = (List.flatten (List.replicate 2 [LAct.launch, LAct.close]), none) ∧
    List.count LAct.launch (loginToDashboard (fun _ => envA) 2).1 = 2 ∧
    List.count LAct.close (loginToDashboard (fun _ => envA) 2).1 = 2 :=
  login_c5 (fun _ => envA) 2 (fun _ => ⟨rfl, rfl, fun hc => by simp [envA] at hc⟩)

end Robiul
